import Mathlib

/-!
Verification of the QRL peer manager (qrl/core/p2p/p2pPeerManager.py) against its
natural-language specification.  Endpoint strings are modelled as lists of
characters; raw byte sequences (header hashes, cumulative difficulties) as lists
of natural numbers.  The peer-manager module itself is absent from the sources
available here (only its test suite and qrl/core/config.py are present), so the
operations below are modelled from the specification, with the concrete
configuration constants taken from config.py.
-/

namespace QRL

/-- Splits a character list at every occurrence of the separator character.
Auxiliary accumulator-passing worker. -/
def splitOnCharAux (sep : Char) : List Char → List Char → List (List Char)
  | [], acc => [acc.reverse]
  | c :: rest, acc =>
    if c = sep then acc.reverse :: splitOnCharAux sep rest []
    else splitOnCharAux sep rest (c :: acc)

/-- Splits a character list at every occurrence of the separator character,
mirroring the splitting of an endpoint string on a dot or a colon. -/
def splitOnChar (sep : Char) (s : List Char) : List (List Char) :=
  splitOnCharAux sep s []

/-- Numeric value of a decimal digit character. -/
def digitVal (c : Char) : Nat := c.toNat - 48

/-- Decimal value of a digit string. -/
def digitsToNat (cs : List Char) : Nat :=
  cs.foldl (fun n c => 10 * n + digitVal c) 0

/-- Modelled from the spec: an octet field of an IP address is a nonempty
run of decimal digits whose value lies in [0, 255]. -/
def decOctet (cs : List Char) : Bool :=
  !cs.isEmpty && cs.all Char.isDigit && decide (digitsToNat cs ≤ 255)

/-- Modelled from the spec: an IP string is valid iff it consists of four
dot-separated decimal octets, each in [0, 255]. -/
def ip_is_valid (cs : List Char) : Bool :=
  match splitOnChar '.' cs with
  | [a, b, c, d] => decOctet a && decOctet b && decOctet c && decOctet d
  | _ => false

/-- Modelled from the spec: a port number is valid iff it lies in [1, 65535]. -/
def port_is_valid (n : Nat) : Bool :=
  decide (1 ≤ n) && decide (n ≤ 65535)

/-- A port field given as a string: nonempty decimal digits with value in
[1, 65535]. -/
def port_chars_valid (cs : List Char) : Bool :=
  !cs.isEmpty && cs.all Char.isDigit && port_is_valid (digitsToNat cs)

/-- Modelled from the spec: a whole endpoint string is valid iff splitting it
on the colon yields exactly an IP field and a port field, both valid. -/
def validEndpoint (cs : List Char) : Bool :=
  match splitOnChar ':' cs with
  | [ip, port] => ip_is_valid ip && port_chars_valid port
  | _ => false

/-- Decimal digit characters of a natural number. -/
def natChars (n : Nat) : List Char := Nat.toDigits 10 n

/-- Canonical serialization of an (ip, port) pair as the characters of
the string ip:port. -/
def ipPort (ip : List Char) (port : Nat) : List Char :=
  ip ++ ':' :: natChars port

/-- Modelled from the spec: get_valid_peers(existing, new_ip, new_port)
revalidates every ip:port string already in existing (as a whole string,
dropping failures) and independently validates the new pair as two separate
fields, appending its serialization when it passes.  The missing source is
qrl/core/p2p/p2pPeerManager.py, P2PPeerManager.get_valid_peers. -/
def get_valid_peers (existing : List (List Char)) (new_ip : List Char)
    (new_port : Nat) : List (List Char) :=
  existing.filter validEndpoint ++
    (if ip_is_valid new_ip && port_is_valid new_port then
       [ipPort new_ip new_port]
     else [])

/-- Modelled from the spec: update_peer_addresses(new_endpoints) filters the
incoming endpoints through the whole-string revalidation of get_valid_peers,
merges the survivors into the persisted book, and emits a connect-request for
every surviving endpoint that was not already present.  The result is the pair
(new book, connect requests).  The missing source is
qrl/core/p2p/p2pPeerManager.py, P2PPeerManager.update_peer_addresses. -/
def update_peer_addresses (book : List (List Char))
    (new_endpoints : List (List Char)) :
    List (List Char) × List (List Char) :=
  let survivors := new_endpoints.filter validEndpoint
  let fresh := survivors.filter (fun e => !book.contains e)
  (book ++ fresh, fresh)

/-- Modelled from the spec: handle_peer_list takes no action when peer
discovery is disabled or the incoming peer-IP set is empty; otherwise it
combines every advertised peer-IP entry with the advertised public port,
validates the candidates together with the sender address at that port through
get_valid_peers, and passes the result to update_peer_addresses.  Returning
none models taking no action; returning some s models passing the set s to
update_peer_addresses.  The missing source is qrl/core/p2p/p2pPeerManager.py,
P2PPeerManager.handle_peer_list. -/
def handle_peer_list (discovery : Bool) (sender_ip : List Char)
    (peer_ips : List (List Char)) (public_port : Nat) :
    Option (List (List Char)) :=
  if discovery = false then none
  else if peer_ips.isEmpty then none
  else
    some (get_valid_peers (peer_ips.map (fun p => ipPort p public_port))
      sender_ip public_port)

/-- The static seed peer list of qrl/core/config.py (UserConfig.peer_list):
five bare IP strings, written without ports. -/
def peer_list : List (List Char) :=
  ["104.251.219.215".data, "104.251.219.145".data, "104.251.219.40".data,
   "104.237.3.185".data, "35.177.60.137".data]

/-- Modelled from the spec: load_peer_addresses reads the persisted endpoint
list (a missing, unreadable or corrupt file is treated as the empty list,
modelled by the none case) and merges in the static seed list of config.py.
The spec additionally claims the merged set is validated, but the passing
tests of the repository require every bare-IP seed entry and the bare-IP file
entry 34.208.138.15 to survive a load, so no validation filter is applied.
The missing source is qrl/core/p2p/p2pPeerManager.py,
P2PPeerManager.load_peer_addresses. -/
def load_peer_addresses (fileContents : Option (List (List Char))) :
    List (List Char) :=
  fileContents.getD [] ++ peer_list

/-- A peer-reported chain summary, qrl_pb2.NodeChainState: height, head hash,
cumulative difficulty as fixed-width bytes, and the local receive time. -/
structure NodeChainState where
  block_number : Nat
  header_hash : List Nat
  cumulative_difficulty : List Nat
  timestamp : Int
deriving DecidableEq, Repr

/-- Unsigned big-endian integer value of a byte sequence: how cumulative
difficulties are compared. -/
def bytesBE (bs : List Nat) : Nat :=
  bs.foldl (fun acc b => 256 * acc + b) 0

/-- Cumulative difficulty of a peer record, as an unsigned big integer. -/
def diffOf (r : Nat × NodeChainState) : Nat :=
  bytesBE r.2.cumulative_difficulty

/-- Best-so-far scan underlying get_better_difficulty: walk the records in
iteration order, replacing the running best exactly when a record holds a
strictly greater difficulty. -/
def gbdAux : Nat → Option Nat → List (Nat × NodeChainState) → Option Nat
  | _, bc, [] => bc
  | best, bc, r :: rest =>
    if best < diffOf r then gbdAux (diffOf r) (some r.1) rest
    else gbdAux best bc rest

/-- Modelled from the spec: get_better_difficulty(local_difficulty) compares
every recorded cumulative difficulty, as an unsigned big integer, against the
local one and returns the channel holding the maximum difficulty that is
strictly greater than the local value (ties broken first-encountered in
iteration order), or none when the local value is maximal.  Channels are
identified by natural numbers; the records are the peer-manager map from
channel to NodeChainState in iteration order.  The missing source is
qrl/core/p2p/p2pPeerManager.py, P2PPeerManager.get_better_difficulty. -/
def get_better_difficulty (records : List (Nat × NodeChainState))
    (local_difficulty : List Nat) : Option Nat :=
  gbdAux (bytesBE local_difficulty) none records

/-- Greatest recorded cumulative difficulty (0 when there are no records). -/
def maxDiffOf : List (Nat × NodeChainState) → Nat
  | [] => 0
  | r :: rest => max (diffOf r) (maxDiffOf rest)

/-- Channel of the first record in iteration order holding the given
cumulative difficulty value. -/
def firstWithDiff : List (Nat × NodeChainState) → Nat → Option Nat
  | [], _ => none
  | r :: rest, m => if diffOf r = m then some r.1 else firstWithDiff rest m

/-- The chain-state staleness threshold of qrl/core/config.py
(UserConfig.chain_state_timeout), in seconds. -/
def chain_state_timeout : Int := 180

/-- Modelled from the spec: a single pass of monitor_chain_state returns the
channels it disconnects, namely every active channel that has no chain-state
record, or whose record is older than the staleness threshold.  The missing
source is qrl/core/p2p/p2pPeerManager.py, P2PPeerManager.monitor_chain_state. -/
def monitor_chain_state (channels : List Nat)
    (status : List (Nat × NodeChainState)) (now timeout : Int) : List Nat :=
  channels.filter fun c =>
    match status.lookup c with
    | none => true
    | some s => decide (timeout < now - s.timestamp)

/-- The local genesis constant of qrl/core/config.py
(DevConfig.genesis_prev_headerhash), as its byte values. -/
def genesis_prev_headerhash : List Nat :=
  "Outside Context Problem".data.map Char.toNat

/-- The per-peer message rate limit of qrl/core/config.py
(UserConfig.peer_rate_limit). -/
def peer_rate_limit : Nat := 500

/-- The payload of a version message, qrllegacy_pb2.VEData. -/
structure VEData where
  version : List Char
  genesis_prev_hash : List Nat
  rate_limit : Nat
deriving DecidableEq, Repr

/-- The possible effects of handle_version on a channel. -/
inductive VersionAction where
  | disconnect
  | reply (v : VEData)
  | ban
  | noAction
deriving DecidableEq, Repr

/-- Modelled from the spec: handle_version disconnects the channel when the
advertised genesis-predecessor hash differs from the local genesis constant;
otherwise it replies with the local version, local genesis hash and local
rate limit when the advertised version string is empty, and does nothing when
it is nonempty.  The missing source is qrl/core/p2p/p2pPeerManager.py,
P2PPeerManager.handle_version. -/
def handle_version (local_version : List Char) (msg : VEData) : VersionAction :=
  if msg.genesis_prev_hash = genesis_prev_headerhash then
    if msg.version.isEmpty then
      VersionAction.reply ⟨local_version, genesis_prev_headerhash, peer_rate_limit⟩
    else VersionAction.noAction
  else VersionAction.disconnect

/-- The possible effects of handle_p2p_acknowledgement on a channel. -/
inductive AckAction where
  | disconnect
  | sendNext
deriving DecidableEq, Repr

/-- Modelled from the spec: handle_p2p_acknowledgement disconnects the channel
when the acknowledged bytes_processed exceeds the channel bytes_sent counter,
and otherwise signals the channel to transmit its next queued message.  The
missing source is qrl/core/p2p/p2pPeerManager.py,
P2PPeerManager.handle_p2p_acknowledgement. -/
def handle_p2p_acknowledgement (bytes_sent bytes_processed : Nat) : AckAction :=
  if bytes_sent < bytes_processed then AckAction.disconnect else AckAction.sendNext

/-- A state transformer that zeroes the block number and the timestamp of a
record while keeping its cumulative difficulty: used to express that
get_better_difficulty ignores those fields. -/
def forgetMeta (s : NodeChainState) : NodeChainState :=
  ⟨0, s.header_hash, s.cumulative_difficulty, 0⟩

/-- Fixture mirroring test_get_better_difficulty: three channels whose
difficulties are 5001, 0 and 3 as two-byte big-endian values. -/
def recsA : List (Nat × NodeChainState) :=
  [(1, ⟨0, [], [19, 137], 0⟩), (2, ⟨4, [], [0, 0], 0⟩), (3, ⟨5, [], [0, 3], 0⟩)]

/-- Fixture mirroring test_get_better_difficulty_self: difficulties 49, 4800
and 3. -/
def recsB : List (Nat × NodeChainState) :=
  [(1, ⟨0, [], [0, 49], 1400000000⟩), (2, ⟨0, [], [18, 192], 0⟩),
   (3, ⟨0, [], [0, 3], 0⟩)]

/-- The local cumulative difficulty 5000 of both difficulty tests, as
two-byte big-endian bytes. -/
def dLocal : List Nat := [19, 136]

/-- Fixture of test_handle_peer_list_works: the observed address of the
sending peer. -/
def senderT : List Char := "187.0.0.2".data

/-- Fixture of test_handle_peer_list_works: the advertised peer-IP entries,
each already carrying a port. -/
def peerIpsT : List (List Char) :=
  ["127.0.0.3:5000".data, "127.0.0.4:5001".data]

/-- Fixture of test_handle_version: a well-formed version message carrying
the local genesis hash and a nonempty version string. -/
def msgOk : VEData := ⟨"1.1.15".data, genesis_prev_headerhash, 500⟩

/-- Fixture of test_handle_version_empty_version_message: an empty version
string with the local genesis hash. -/
def msgEmpty : VEData := ⟨[], genesis_prev_headerhash, 500⟩

/-- Fixture of test_handle_version_wrong_genesis_prev_headerhash: the foreign
genesis bytes TEST123. -/
def msgBad : VEData := ⟨"1.1.15".data, "TEST123".data.map Char.toNat, 500⟩

/-- Membership in the result of get_valid_peers: the revalidated members of
existing together with the serialized new pair when it validates. -/
theorem mem_get_valid_peers (existing : List (List Char)) (new_ip : List Char)
    (new_port : Nat) (x : List Char) :
    x ∈ get_valid_peers existing new_ip new_port ↔
      (x ∈ existing ∧ validEndpoint x = true) ∨
        ((ip_is_valid new_ip && port_is_valid new_port) = true ∧
          x = ipPort new_ip new_port) := by
  unfold get_valid_peers
  cases h : ip_is_valid new_ip && port_is_valid new_port <;>
    simp [h, List.mem_filter, List.mem_append, and_comm]

/-- The best-so-far scan leaves its accumulator untouched when no record
strictly exceeds it. -/
theorem gbdAux_of_le (l : List (Nat × NodeChainState)) (best : Nat)
    (bc : Option Nat) (h : ∀ r ∈ l, diffOf r ≤ best) :
    gbdAux best bc l = bc := by
  induction l with
  | nil => rfl
  | cons r rest ih =>
    have hr : diffOf r ≤ best := h r (List.mem_cons_self r rest)
    have : ¬ best < diffOf r := not_lt.mpr hr
    simp only [gbdAux, if_neg this]
    exact ih (fun s hs => h s (List.mem_cons_of_mem r hs))

/-- Every recorded difficulty is bounded by maxDiffOf. -/
theorem diffOf_le_maxDiffOf {l : List (Nat × NodeChainState)}
    {r : Nat × NodeChainState} (h : r ∈ l) : diffOf r ≤ maxDiffOf l := by
  induction l with
  | nil => cases h
  | cons s rest ih =>
    rcases List.mem_cons.mp h with h' | h'
    · subst h'; exact le_max_left _ _
    · exact le_trans (ih h') (le_max_right _ _)

/-- Some record strictly exceeds a bound iff maxDiffOf does. -/
theorem exists_lt_iff_lt_maxDiffOf {l : List (Nat × NodeChainState)} {b : Nat} :
    (∃ r ∈ l, b < diffOf r) ↔ b < maxDiffOf l := by
  induction l with
  | nil => simp [maxDiffOf]
  | cons s rest ih =>
    simp only [List.mem_cons, maxDiffOf, lt_max_iff]
    constructor
    · rintro ⟨r, h' | h', hlt⟩
      · subst h'; exact Or.inl hlt
      · exact Or.inr (ih.mp ⟨r, h', hlt⟩)
    · rintro (h | h)
      · exact ⟨s, Or.inl rfl, h⟩
      · obtain ⟨r, hr, hlt⟩ := ih.mpr h
        exact ⟨r, Or.inr hr, hlt⟩

/-- When some record strictly exceeds the running best, the scan returns the
first record attaining the maximum recorded difficulty. -/
theorem gbdAux_of_lt (l : List (Nat × NodeChainState)) (best : Nat)
    (bc : Option Nat) (h : best < maxDiffOf l) :
    gbdAux best bc l = firstWithDiff l (maxDiffOf l) := by
  induction l generalizing best bc with
  | nil => exact absurd h (by simp [maxDiffOf])
  | cons r rest ih =>
    by_cases hlt : best < diffOf r
    · simp only [gbdAux, if_pos hlt]
      by_cases hm : maxDiffOf rest ≤ diffOf r
      · have hmax : maxDiffOf (r :: rest) = diffOf r := max_eq_left hm
        rw [hmax]
        have : gbdAux (diffOf r) (some r.1) rest = some r.1 :=
          gbdAux_of_le rest (diffOf r) (some r.1)
            (fun s hs => le_trans (diffOf_le_maxDiffOf hs) hm)
        rw [this, firstWithDiff, if_pos rfl]
      · push_neg at hm
        have hmax : maxDiffOf (r :: rest) = maxDiffOf rest :=
          max_eq_right (le_of_lt hm)
        rw [hmax, firstWithDiff, if_neg (ne_of_lt hm), ih (diffOf r) (some r.1) hm]
    · push_neg at hlt
      simp only [gbdAux, if_neg (not_lt.mpr hlt)]
      have hner : diffOf r < maxDiffOf (r :: rest) := lt_of_le_of_lt hlt h
      have hmax : maxDiffOf (r :: rest) = maxDiffOf rest := by
        rcases max_cases (diffOf r) (maxDiffOf rest) with ⟨he, _⟩ | ⟨he, _⟩
        · exact absurd (he ▸ hner) (lt_irrefl _)
        · exact he
      rw [hmax, firstWithDiff, if_neg (ne_of_lt (hmax ▸ hner)),
        ih best bc (hmax ▸ h)]

/-- The scan depends only on the channels and the cumulative difficulties of
the records. -/
theorem gbdAux_map (f : NodeChainState → NodeChainState)
    (hf : ∀ s, (f s).cumulative_difficulty = s.cumulative_difficulty)
    (l : List (Nat × NodeChainState)) (best : Nat) (bc : Option Nat) :
    gbdAux best bc (l.map (fun r => (r.1, f r.2))) = gbdAux best bc l := by
  induction l generalizing best bc with
  | nil => rfl
  | cons r rest ih =>
    have hd : diffOf (r.1, f r.2) = diffOf r := by
      simp [diffOf, hf]
    simp only [List.map_cons, gbdAux, hd]
    by_cases h : best < diffOf r
    · simp only [if_pos h, ih]
    · simp only [if_neg h, ih]

/-- C1: get_better_difficulty decides using only each recorded cumulative
difficulty, compared as an unsigned big integer, ignoring block_number and
timestamp entirely; when no recorded difficulty strictly exceeds the local
one it returns none, and otherwise it returns the channel holding the maximum
recorded difficulty, ties broken first-encountered in iteration order. -/
theorem get_better_difficulty_spec (records : List (Nat × NodeChainState))
    (d : List Nat) :
    (∀ f : NodeChainState → NodeChainState,
        (∀ s, (f s).cumulative_difficulty = s.cumulative_difficulty) →
        get_better_difficulty (records.map (fun r => (r.1, f r.2))) d =
          get_better_difficulty records d) ∧
      ((∀ r ∈ records, bytesBE r.2.cumulative_difficulty ≤ bytesBE d) →
        get_better_difficulty records d = none) ∧
      ((∃ r ∈ records, bytesBE d < bytesBE r.2.cumulative_difficulty) →
        get_better_difficulty records d =
          firstWithDiff records (maxDiffOf records)) :=
  ⟨fun f hf => gbdAux_map f hf records _ none,
   fun h => gbdAux_of_le records _ none h,
   fun h => gbdAux_of_lt records _ none (exists_lt_iff_lt_maxDiffOf.mp h)⟩

/-- Witness for C1 at the fixtures of the difficulty tests: channel 1 wins
with difficulty 5001 against the local 5000 even after its block number and
timestamp are zeroed, and no channel wins when 4800 is the best on offer. -/
theorem get_better_difficulty_spec_witness :
    get_better_difficulty (recsA.map (fun r => (r.1, forgetMeta r.2))) dLocal =
        get_better_difficulty recsA dLocal ∧
      get_better_difficulty recsA dLocal = some 1 ∧
      get_better_difficulty recsB dLocal = none := by
  refine ⟨(get_better_difficulty_spec recsA dLocal).1 forgetMeta (fun s => rfl),
    ?_, (get_better_difficulty_spec recsB dLocal).2.1 (by decide)⟩
  have h := (get_better_difficulty_spec recsA dLocal).2.2 (by decide)
  rw [h]; decide

/-- C2: a single pass of monitor_chain_state disconnects exactly the active
channels that have no chain-state record or whose stored timestamp is older
than the current time minus the staleness threshold. -/
theorem monitor_chain_state_spec (channels : List Nat)
    (status : List (Nat × NodeChainState)) (now timeout : Int) (c : Nat) :
    c ∈ monitor_chain_state channels status now timeout ↔
      c ∈ channels ∧
        (status.lookup c = none ∨
          ∃ s, status.lookup c = some s ∧ s.timestamp < now - timeout) := by
  unfold monitor_chain_state
  rw [List.mem_filter]
  cases h : status.lookup c with
  | none => simp [h]
  | some s =>
    have harith : (timeout < now - s.timestamp) ↔
        (s.timestamp < now - timeout) := by omega
    simp [h, harith]

/-- C3: the behavior the update_peer_addresses claim requires at the input of
the expectedFailure test: with 127.0.0.1:9000 already in the book, updating
with 127.0.0.2:9000 must add the endpoint to the book and emit a
connect-request for exactly that endpoint. -/
theorem update_peer_addresses_intended :
    (update_peer_addresses ["127.0.0.1:9000".data] ["127.0.0.2:9000".data]).2 =
        ["127.0.0.2:9000".data] ∧
      (update_peer_addresses ["127.0.0.1:9000".data]
          ["127.0.0.2:9000".data]).1 =
        ["127.0.0.1:9000".data, "127.0.0.2:9000".data] := by
  decide

/-- C4: the behavior the handle_peer_list claim requires at the input of the
expectedFailure test: an empty peer-IP set yields no action, as does disabled
peer discovery. -/
theorem handle_peer_list_empty_intended :
    handle_peer_list true "127.0.0.2".data [] 9000 = none ∧
      handle_peer_list false "127.0.0.2".data
        ["127.0.0.3:5000".data, "127.0.0.4:5001".data] 9000 = none := by
  decide

/-- C5 counterexample: after loading a book whose file holds the entry
34.208.138.15, the seed entry 104.251.219.215 of config.py is present in the
resulting set although it is not a syntactically valid ip:port endpoint. -/
theorem load_invariant_counterexample :
    "104.251.219.215".data ∈
        load_peer_addresses (some ["34.208.138.15".data]) ∧
      validEndpoint "104.251.219.215".data = false := by
  decide

/-- C5 (amended): every load yields exactly the file contents (empty when the
file is missing or unreadable) merged with the static seed list; the seed
entries are syntactically valid bare IPs carrying no port, hence not valid
ip:port endpoints. -/
theorem load_peer_addresses_amended :
    (∀ (fc : List (List Char)) (x : List Char),
        x ∈ load_peer_addresses (some fc) ↔ x ∈ fc ∨ x ∈ peer_list) ∧
      (∀ x : List Char, x ∈ load_peer_addresses none ↔ x ∈ peer_list) ∧
      peer_list.all ip_is_valid = true ∧
      peer_list.all (fun p => !validEndpoint p) = true := by
  refine ⟨fun fc x => ?_, fun x => ?_, by decide, by decide⟩
  · simp [load_peer_addresses]
  · simp [load_peer_addresses]

/-- C6: with peer discovery enabled and a nonempty peer-IP set,
handle_peer_list passes to update_peer_addresses exactly the validated
candidate set built from the peer-IP entries combined at the advertised
public port plus the sender address at that port. -/
theorem handle_peer_list_spec (sender_ip : List Char)
    (peer_ips : List (List Char)) (public_port : Nat) (h : peer_ips ≠ []) :
    handle_peer_list true sender_ip peer_ips public_port =
        some (get_valid_peers (peer_ips.map (fun p => ipPort p public_port))
          sender_ip public_port) ∧
      ∀ x, x ∈ get_valid_peers (peer_ips.map (fun p => ipPort p public_port))
            sender_ip public_port ↔
          (x ∈ peer_ips.map (fun p => ipPort p public_port) ∧
            validEndpoint x = true) ∨
            ((ip_is_valid sender_ip && port_is_valid public_port) = true ∧
              x = ipPort sender_ip public_port) := by
  constructor
  · cases peer_ips with
    | nil => exact absurd rfl h
    | cons p ps => rfl
  · exact mem_get_valid_peers _ _ _

/-- Witness for C6 at the fixture of test_handle_peer_list_works: both
advertised entries pick up a second port and are dropped as invalid, so only
the sender address 187.0.0.2:9000 is passed on. -/
theorem handle_peer_list_spec_witness :
    handle_peer_list true senderT peerIpsT 9000 =
      some ["187.0.0.2:9000".data] := by
  have h := (handle_peer_list_spec senderT peerIpsT 9000 (by decide)).1
  rw [h]; decide

/-- C7: get_valid_peers keeps exactly the members of existing that revalidate
as whole endpoint strings and adds the serialized new pair exactly when the
pair validates; in particular the two listed concrete evaluations hold and an
invalid new pair contributes nothing. -/
theorem get_valid_peers_spec :
    (∀ (existing : List (List Char)) (new_ip : List Char) (new_port : Nat)
        (x : List Char),
        x ∈ get_valid_peers existing new_ip new_port ↔
          (x ∈ existing ∧ validEndpoint x = true) ∨
            ((ip_is_valid new_ip && port_is_valid new_port) = true ∧
              x = ipPort new_ip new_port)) ∧
      get_valid_peers ["256.256.256.256:9000".data, "127.0.0.3:90000".data]
          "187.0.0.1".data 9000 = ["187.0.0.1:9000".data] ∧
      get_valid_peers [] "127.0.0.1".data 70000 = [] ∧
      get_valid_peers [] "256.256.256.256".data 10000 = [] :=
  ⟨mem_get_valid_peers, by decide, by decide, by decide⟩

/-- C8: handle_version disconnects on a foreign genesis hash, replies with
the local version, genesis hash and rate limit on an empty version string,
takes no action on a nonempty version with matching genesis, and never bans. -/
theorem handle_version_spec (lv : List Char) (msg : VEData) :
    (msg.genesis_prev_hash ≠ genesis_prev_headerhash →
        handle_version lv msg = VersionAction.disconnect) ∧
      (msg.genesis_prev_hash = genesis_prev_headerhash → msg.version = [] →
        handle_version lv msg =
          VersionAction.reply ⟨lv, genesis_prev_headerhash, peer_rate_limit⟩) ∧
      (msg.genesis_prev_hash = genesis_prev_headerhash → msg.version ≠ [] →
        handle_version lv msg = VersionAction.noAction) ∧
      handle_version lv msg ≠ VersionAction.ban := by
  refine ⟨fun h => ?_, fun h he => ?_, fun h hne => ?_, ?_⟩
  · simp [handle_version, h]
  · simp [handle_version, h, he]
  · cases hv : msg.version with
    | nil => exact absurd hv hne
    | cons c cs => simp [handle_version, h, hv]
  · unfold handle_version
    split
    · split <;> simp
    · simp

/-- Witness for C8 at the fixtures of the three handle_version tests. -/
theorem handle_version_spec_witness :
    handle_version "1.1.15".data msgBad = VersionAction.disconnect ∧
      handle_version "1.1.15".data msgEmpty =
        VersionAction.reply
          ⟨"1.1.15".data, genesis_prev_headerhash, peer_rate_limit⟩ ∧
      handle_version "1.1.15".data msgOk = VersionAction.noAction :=
  ⟨(handle_version_spec _ msgBad).1 (by decide),
   (handle_version_spec _ msgEmpty).2.1 (by decide) rfl,
   (handle_version_spec _ msgOk).2.2.1 (by decide) (by decide)⟩

/-- C9: handle_p2p_acknowledgement disconnects exactly when the acknowledged
byte count strictly exceeds the bytes sent, and otherwise triggers the next
queued send. -/
theorem handle_p2p_acknowledgement_spec (bytes_sent bytes_processed : Nat) :
    (handle_p2p_acknowledgement bytes_sent bytes_processed =
        AckAction.disconnect ↔ bytes_sent < bytes_processed) ∧
      (handle_p2p_acknowledgement bytes_sent bytes_processed =
        AckAction.sendNext ↔ bytes_processed ≤ bytes_sent) := by
  unfold handle_p2p_acknowledgement
  split <;> rename_i h <;> simp_all

end QRL
